import Mathlib

/-!
Verification of the event generation and fan-in streaming engine of
internal/api/stream.go.

The development shallowly embeds the Go source:

* the wire-level writer `stream` (stream.go lines 177-203) becomes a pure
  function from a flusher capability flag and a trace of select-branch
  observations to a list of output actions (header sets, body writes,
  flushes);
* one scheduling goroutine (stream.go lines 130-161) becomes the sequential
  step function `taskStep` over an explicit timer state;
* the whole session (orchestrator `contentStreamer.content`, the scheduling
  goroutines, the buffered channel of depth 1 and the writer) becomes the
  labelled transition function `stepL` on `SysState`;
* the configuration validation at the top of `content` (lines 111-127)
  becomes the function `content` returning `Except` like the Go method
  returns `error`.
-/

namespace StreamSpec

/-- Convert a string literal to its character list; all wire-format
reasoning is over `List Char`, one `Char` per byte of the Go strings. -/
def str (s : String) : List Char := s.data

/-- The newline byte written by the `\n` escapes in the Go format strings. -/
def nl : Char := '\n'

/-- stream.go lines 172-175: `type event struct { name string; data []byte }`. -/
structure event where
  name : List Char
  data : List Char
deriving DecidableEq

/-- One observable output effect of the writer on the `http.ResponseWriter`:
a header set, an explicit status write, a body write, or a flush. -/
inductive Action where
  | setHeader (key value : List Char)
  | writeHeader (code : Nat)
  | writeBody (bytes : List Char)
  | flush
deriving DecidableEq

/-- stream.go lines 195-200: the per-event body of the writer loop.
`fmt.Fprintf(w, "event: %s\n", e.name)` runs only when `e.name != ""`;
then `fmt.Fprintf(w, "data: %s\n\n", string(e.data))` and
`flusher.Flush()` always run.  `%s` interpolates the bytes verbatim. -/
def writeEvent (e : event) : List Action :=
  (if e.name ≠ [] then [Action.writeBody (str "event: " ++ e.name ++ [nl])] else [])
    ++ [Action.writeBody (str "data: " ++ e.data ++ [nl, nl]), Action.flush]

/-- One observation of the `select` inside the writer loop (stream.go
lines 191-202): either `<-ctx.Done()` fired, or `e := <-ch` delivered an
event. -/
inductive StreamInput where
  | ctxDone
  | recv (e : event)
deriving DecidableEq

/-- stream.go lines 189-202: the writer loop.  On `ctx.Done()` it sets
`isStreaming = false` and exits, processing nothing further; on a received
event it writes the record and continues. -/
def streamLoop : List StreamInput → List Action
  | [] => []
  | StreamInput.ctxDone :: _ => []
  | StreamInput.recv e :: rest => writeEvent e ++ streamLoop rest

/-- stream.go lines 184-187: the four `w.Header().Set(...)` calls, in
source order. -/
def headerActions : List Action :=
  [ Action.setHeader (str "Content-Type") (str "text/event-stream"),
    Action.setHeader (str "Cache-Control") (str "no-cache"),
    Action.setHeader (str "Connection") (str "keep-alive"),
    Action.setHeader (str "Access-Control-Allow-Origin") (str "*") ]

/-- Models `net/http.Error(w, msg, code)` as called on stream.go line 180:
it sets `Content-Type: text/plain; charset=utf-8` and
`X-Content-Type-Options: nosniff`, writes the status code, and writes the
message followed by a newline as the response body. -/
def httpError (msg : List Char) (code : Nat) : List Action :=
  [ Action.setHeader (str "Content-Type") (str "text/plain; charset=utf-8"),
    Action.setHeader (str "X-Content-Type-Options") (str "nosniff"),
    Action.writeHeader code,
    Action.writeBody (msg ++ [nl]) ]

/-- stream.go lines 177-203: the function `stream`.  The flusher type
assertion `w.(http.Flusher)` is modelled by the flag `flusherOk`; when it
fails, `http.Error(w, "server sent events are unsupported",
http.StatusInternalServerError)` runs and the function returns; otherwise
the headers are set and the loop runs over the observation trace. -/
def stream (flusherOk : Bool) (inputs : List StreamInput) : List Action :=
  if flusherOk then headerActions ++ streamLoop inputs
  else httpError (str "server sent events are unsupported") 500

/-- The response body bytes produced by a list of actions. -/
def bodyOf : List Action → List Char
  | [] => []
  | Action.writeBody bs :: rest => bs ++ bodyOf rest
  | _ :: rest => bodyOf rest

/-- The header key/value pairs set by a list of actions, in order. -/
def headersOf : List Action → List (List Char × List Char)
  | [] => []
  | Action.setHeader k v :: rest => (k, v) :: headersOf rest
  | _ :: rest => headersOf rest

/-- The explicit status codes written by a list of actions, in order. -/
def statusesOf : List Action → List Nat
  | [] => []
  | Action.writeHeader c :: rest => c :: statusesOf rest
  | _ :: rest => statusesOf rest

/-- The exact bytes one event contributes to the response body. -/
def eventBytes (e : event) : List Char := bodyOf (writeEvent e)

/-- The content of the first record under the push-protocol framing rule:
everything strictly before the first blank line, i.e. before the first two
consecutive newline bytes. -/
def firstRecord : List Char → List Char
  | [] => []
  | [c] => [c]
  | c1 :: c2 :: rest =>
    if c1 = nl ∧ c2 = nl then [] else c1 :: firstRecord (c2 :: rest)

/-- The outcome of one `eg.Generate(ctx)` call (stream.go line 140):
either an event or an error. -/
inductive GenResult where
  | ok (e : event)
  | err
deriving DecidableEq

/-- One observation of the `select` inside a scheduling goroutine
(stream.go lines 136-158): either `<-ctx.Done()` fired, or `<-timer.C`
fired and `Generate` returned the given result. -/
inductive TaskInput where
  | ctxDone
  | timerFire (r : GenResult)
deriving DecidableEq

/-- One observable effect of a scheduling goroutine iteration: a logged
generator error (`cs.logger.Errorf`, line 142) or an event pushed onto the
shared channel (`ch <- e`, line 150). -/
inductive TaskOutput where
  | logged
  | pushed (e : event)
deriving DecidableEq

/-- The local state of one scheduling goroutine: the `isRunning` flag
(stream.go line 133) and its `time.Timer`.  `timer = some d` means the
timer is armed and will fire once after duration `d`; `timer = none` means
the timer has fired and was never reset, so `timer.C` never delivers
again. -/
structure TaskState where
  isRunning : Bool
  timer : Option Nat
deriving DecidableEq

/-- stream.go line 132: `timer := time.NewTimer(0)` arms the timer to fire
immediately (duration 0), and the goroutine starts with `isRunning = true`. -/
def initTaskState : TaskState := ⟨true, some 0⟩

/-- stream.go lines 135-160: one iteration of the scheduling loop.
`none` means the given observation is impossible from this state (the loop
has exited, or `timer.C` cannot fire because the timer is dead).  On
`ctx.Done()` the loop exits.  On a timer fire, `Generate` runs: on error
the error is logged, the `break` leaves the `select`, and the timer is
never reset; on success the event is pushed, `nextTick := eg.RunEvery()`
is queried, and the loop either exits (`nextTick == 0`) or resets the
timer to `nextTick`. -/
def taskStep (runEvery : Nat) (s : TaskState) : TaskInput → Option (TaskState × List TaskOutput) :=
  fun i =>
    if s.isRunning = false then none
    else
      match i with
      | TaskInput.ctxDone => some (⟨false, s.timer⟩, [])
      | TaskInput.timerFire r =>
        match s.timer with
        | none => none
        | some _ =>
          match r with
          | GenResult.err => some (⟨true, none⟩, [TaskOutput.logged])
          | GenResult.ok e =>
            if runEvery = 0 then some (⟨false, none⟩, [TaskOutput.pushed e])
            else some (⟨true, some runEvery⟩, [TaskOutput.pushed e])

/-- Run one scheduling goroutine over a whole observation trace,
collecting its outputs; `none` means the trace is not realizable. -/
def taskRun (runEvery : Nat) (s : TaskState) : List TaskInput → Option (TaskState × List TaskOutput)
  | [] => some (s, [])
  | i :: rest =>
    match taskStep runEvery s i with
    | none => none
    | some (s', out) =>
      match taskRun runEvery s' rest with
      | none => none
      | some (s'', out') => some (s'', out ++ out')

/-- How many events a list of task outputs pushed onto the channel. -/
def pushCount (out : List TaskOutput) : Nat :=
  out.countP fun o => match o with | TaskOutput.pushed _ => true | _ => false

/-- `pushCount` of the outputs of a possibly unrealizable run. -/
def optPushCount : Option (TaskState × List TaskOutput) → Nat
  | none => 0
  | some (_, out) => pushCount out

/-- stream.go lines 104-109: the `contentStreamer` fields that the
`content` method inspects.  `eventGenerators = none` models a nil slice
and `some l` a non-nil slice whose elements are the generators' `RunEvery`
durations; `streamFn` and `logger` are `true` exactly when the
corresponding Go field is non-nil. -/
structure contentStreamer where
  eventGenerators : Option (List Nat)
  streamFn : Bool
  logger : Bool
deriving DecidableEq

/-- Number of producers configured on a `contentStreamer`. -/
def numGenerators (cs : contentStreamer) : Nat :=
  (cs.eventGenerators.getD []).length

/-- stream.go lines 111-127: the validation at the top of
`contentStreamer.content`, in source order (`cs.eventGenerators == nil`,
then `cs.streamFn == nil`, then `cs.logger == nil`), each returning its
error message.  On valid configuration the method spawns one goroutine
per generator, runs the writer, waits, closes the channel and returns
`nil`; that success path is modelled as `Except.ok` carrying the number
of goroutines spawned (`wg.Add(len(cs.eventGenerators))`, line 127). -/
def content (cs : contentStreamer) : Except (List Char) Nat :=
  match cs.eventGenerators with
  | none => Except.error (str "event generators are not configured")
  | some gens =>
    if cs.streamFn = false then Except.error (str "stream function is not configured")
    else if cs.logger = false then Except.error (str "logger is not configured")
    else Except.ok gens.length

/-- The phase of one scheduling goroutine inside the whole session:
blocked at the `select` with the given timer state, suspended in the
blocking send `ch <- e` (stream.go line 150), or returned (its deferred
`wg.Done()` has run). -/
inductive GPhase where
  | selecting (timer : Option Nat)
  | sending (e : event)
  | gdone
deriving DecidableEq

/-- The state of one whole streaming session: the phases of the
scheduling goroutines, the contents of the buffered channel
`make(chan event, 1)` (stream.go line 112), whether `cs.streamFn`
returned, whether `close(ch)` ran, whether the context was canceled, the
events the writer has consumed, and whether a send on the closed channel
has panicked. -/
structure SysState where
  tasks : List GPhase
  queue : List event
  wdone : Bool
  closed : Bool
  canceled : Bool
  written : List event
  panicked : Bool
deriving DecidableEq

/-- Capacity of the shared channel: `make(chan event, 1)`. -/
def queueCap : Nat := 1

/-- The initial session state after a valid `content` call spawned `n`
scheduling goroutines: every goroutine at its `select` with a timer armed
for duration 0, empty channel, writer running, nothing canceled. -/
def initSys (n : Nat) : SysState :=
  ⟨List.replicate n (GPhase.selecting (some 0)), [], false, false, false, [], false⟩

/-- One interleaving step of the session, chosen by a scheduler label. -/
inductive Label where
  | cancel
  | observeCancel (i : Nat)
  | genErr (i : Nat)
  | genOk (i : Nat) (e : event)
  | push (i : Nat)
  | recvEvent
  | writerExit
  | closeCh
deriving DecidableEq

/-- The labelled transition function of the whole session, parameterized
by `re i`, the `RunEvery()` duration of generator `i`.  `none` means the
labelled step is not enabled in the given state.

* `cancel`: the session context is canceled (client disconnect).
* `observeCancel i`: goroutine `i`, at its `select`, takes the
  `<-ctx.Done()` branch (only available once canceled) and returns
  (stream.go lines 137-138).
* `genErr i` / `genOk i e`: goroutine `i`, at its `select` with an armed
  timer, takes the `<-timer.C` branch and `Generate` errors (timer left
  dead, error logged, lines 140-148) or yields `e` (goroutine moves to
  the blocking send, line 150).  These branches stay available after
  cancellation: Go `select` picks among all ready cases.
* `push i`: goroutine `i` completes `ch <- e`: panics if the channel is
  closed, requires buffer space otherwise, then queries `RunEvery()` and
  terminates or re-arms (lines 150-157).
* `recvEvent`: the writer, still running, receives the next buffered
  event (stream.go line 195).
* `writerExit`: the writer takes the `<-ctx.Done()` branch and
  `cs.streamFn` returns (lines 193-194).
* `closeCh`: `wg.Wait()` has returned — the writer has exited and every
  goroutine is done — so the orchestrator runs `close(ch)` (stream.go
  lines 164-167). -/
def stepL (re : Nat → Nat) (s : SysState) : Label → Option SysState
  | Label.cancel =>
    if s.canceled then none else some { s with canceled := true }
  | Label.observeCancel i =>
    match s.tasks[i]? with
    | some (GPhase.selecting _) =>
      if s.canceled then some { s with tasks := s.tasks.set i GPhase.gdone } else none
    | _ => none
  | Label.genErr i =>
    match s.tasks[i]? with
    | some (GPhase.selecting (some _)) =>
      some { s with tasks := s.tasks.set i (GPhase.selecting none) }
    | _ => none
  | Label.genOk i e =>
    match s.tasks[i]? with
    | some (GPhase.selecting (some _)) =>
      some { s with tasks := s.tasks.set i (GPhase.sending e) }
    | _ => none
  | Label.push i =>
    match s.tasks[i]? with
    | some (GPhase.sending e) =>
      if s.closed then some { s with panicked := true }
      else if s.queue.length < queueCap then
        some { s with
          queue := s.queue ++ [e],
          tasks := s.tasks.set i
            (if re i = 0 then GPhase.gdone else GPhase.selecting (some (re i))) }
      else none
    | _ => none
  | Label.recvEvent =>
    if s.wdone then none
    else
      match s.queue with
      | e :: rest => some { s with queue := rest, written := s.written ++ [e] }
      | [] => none
  | Label.writerExit =>
    if s.wdone then none
    else if s.canceled then some { s with wdone := true } else none
  | Label.closeCh =>
    if s.closed then none
    else if s.wdone && s.tasks.all (fun t => t == GPhase.gdone) then
      some { s with closed := true }
    else none

/-- Run the session along an explicit label trace; `none` means some
label in the trace was not enabled. -/
def runTrace (re : Nat → Nat) (s : SysState) : List Label → Option SysState
  | [] => some s
  | l :: ls =>
    match stepL re s l with
    | none => none
    | some s' => runTrace re s' ls

/-- The session safety invariant: no send on the closed channel has
panicked, and the channel is only ever closed once every scheduling
goroutine has returned. -/
def Inv (s : SysState) : Prop :=
  s.panicked = false ∧ (s.closed = true → ∀ t ∈ s.tasks, t = GPhase.gdone)

/-- `Inv` lifted to the result of a possibly unrealizable trace. -/
def sysInv : Option SysState → Prop
  | none => True
  | some s => Inv s

/-! Helper lemmas about the writer output. -/

theorem bodyOf_append (xs ys : List Action) : bodyOf (xs ++ ys) = bodyOf xs ++ bodyOf ys := by
  induction xs with
  | nil => rfl
  | cons a rest ih => cases a <;> simp [bodyOf, ih]

theorem headersOf_append (xs ys : List Action) :
    headersOf (xs ++ ys) = headersOf xs ++ headersOf ys := by
  induction xs with
  | nil => rfl
  | cons a rest ih => cases a <;> simp [headersOf, ih]

theorem headersOf_writeEvent (e : event) : headersOf (writeEvent e) = [] := by
  by_cases h : e.name = [] <;> simp [writeEvent, h, headersOf_append, headersOf]

theorem headersOf_streamLoop (inputs : List StreamInput) : headersOf (streamLoop inputs) = [] := by
  induction inputs with
  | nil => rfl
  | cons i rest ih =>
    cases i with
    | ctxDone => rfl
    | recv e => simp [streamLoop, headersOf_append, headersOf_writeEvent, ih]

theorem eventBytes_eq (e : event) :
    eventBytes e = (if e.name = [] then [] else str "event: " ++ e.name ++ [nl])
      ++ (str "data: " ++ e.data ++ [nl, nl]) := by
  by_cases h : e.name = [] <;>
    simp [eventBytes, writeEvent, h, bodyOf_append, bodyOf]

theorem str_data_head : str "data: " = 'd' :: str "ata: " := rfl

theorem str_event_head : str "event: " = 'e' :: str "vent: " := rfl

theorem eventBytes_nil_name (d : List Char) :
    eventBytes ⟨[], d⟩ = str "data: " ++ d ++ [nl, nl] := by
  rw [eventBytes_eq]
  simp

theorem firstRecord_le (X Y : List Char) :
    (firstRecord (X ++ nl :: nl :: Y)).length ≤ X.length := by
  induction X with
  | nil => simp [firstRecord]
  | cons a X' ih =>
    cases X' with
    | nil =>
      by_cases ha : a = nl
      · simp [firstRecord, ha]
      · simp [firstRecord, ha]
    | cons b X'' =>
      by_cases hab : a = nl ∧ b = nl
      · simp [firstRecord, hab]
      · have h2 := ih
        simp only [List.cons_append, firstRecord, hab, if_false, List.length_cons,
          List.append_eq] at h2 ⊢
        omega

/-! Claim theorems about the transport writer. -/

/-- C5: encoding the event named `navigation` with payload
`{"sections":[]}` emits exactly the bytes
`event: navigation\ndata: {"sections":[]}\n\n`; encoding an event with
empty name and payload `{"content":{}}` emits exactly
`data: {"content":{}}\n\n` with no `event:` line; in general the
`event: <name>` line opens the record exactly when the name is non-empty,
and every record ends with the data line followed by a blank line. -/
theorem wire_encoding_examples_and_shape :
    eventBytes ⟨str "navigation", str "\x7b\"sections\":[]\x7d"⟩ =
      str "event: navigation\ndata: \x7b\"sections\":[]\x7d\n\n"
    ∧ eventBytes ⟨[], str "\x7b\"content\":\x7b\x7d\x7d"⟩ =
      str "data: \x7b\"content\":\x7b\x7d\x7d\n\n"
    ∧ (∀ e : event,
        (∃ rest, eventBytes e = str "event: " ++ e.name ++ [nl] ++ rest) ↔ e.name ≠ [])
    ∧ (∀ e : event, ∃ front,
        eventBytes e = front ++ (str "data: " ++ e.data ++ [nl, nl])) := by
  refine ⟨by decide, by decide, ?_, ?_⟩
  · intro e
    constructor
    · rintro ⟨rest, hr⟩ hn
      obtain ⟨en, ed⟩ := e
      dsimp only at hn hr
      subst hn
      rw [eventBytes_nil_name] at hr
      rw [str_data_head, str_event_head] at hr
      simp only [List.cons_append, List.nil_append] at hr
      have h0 := congrArg List.head? hr
      rw [List.head?_cons, List.head?_cons] at h0
      exact absurd (Option.some.inj h0) (by decide)
    · intro hne
      refine ⟨str "data: " ++ e.data ++ [nl, nl], ?_⟩
      rw [eventBytes_eq]
      simp [hne, List.append_assoc]
  · intro e
    exact ⟨_, eventBytes_eq e⟩

/-- C8: once the writer loop observes `ctx.Done()`, it exits at once:
every event received before that point is written, and nothing after the
cancellation point is processed or written, no matter how many events
remain queued behind it. -/
theorem writer_stops_at_cancellation :
    ∀ (es : List event) (post : List StreamInput),
      streamLoop (es.map StreamInput.recv ++ StreamInput.ctxDone :: post) =
        (es.map writeEvent).flatten := by
  intro es post
  induction es with
  | nil => rfl
  | cons e rest ih => simp [streamLoop, ih]

/-- C9: on a flush-capable sink, the writer sets exactly the four headers
`Content-Type: text/event-stream`, `Cache-Control: no-cache`,
`Connection: keep-alive` and `Access-Control-Allow-Origin: *`, each once
and in that order, all of them before any byte of body: the output is the
header block followed by the loop output, and the loop output sets no
header while the header block writes no body byte. -/
theorem headers_set_once_before_body :
    ∀ inputs : List StreamInput,
      headersOf (stream true inputs) =
        [ (str "Content-Type", str "text/event-stream"),
          (str "Cache-Control", str "no-cache"),
          (str "Connection", str "keep-alive"),
          (str "Access-Control-Allow-Origin", str "*") ]
      ∧ stream true inputs = headerActions ++ streamLoop inputs
      ∧ headersOf (streamLoop inputs) = []
      ∧ bodyOf headerActions = [] := by
  intro inputs
  refine ⟨?_, rfl, headersOf_streamLoop inputs, rfl⟩
  show headersOf (headerActions ++ streamLoop inputs) = _
  rw [headersOf_append, headersOf_streamLoop]
  rfl

/-- C3 counterexample: on a sink without flush support the writer calls
`http.Error` with `http.StatusInternalServerError`: the status written is
500, not the service-unavailable 503 the claim names, and the response
body is the error message plus a newline, not zero bytes. -/
theorem unsupported_sink_counterexample :
    statusesOf (stream false [StreamInput.recv ⟨[], str "x"⟩]) = [500]
    ∧ bodyOf (stream false [StreamInput.recv ⟨[], str "x"⟩]) =
        str "server sent events are unsupported\n"
    ∧ statusesOf (stream false [StreamInput.recv ⟨[], str "x"⟩]) ≠ [503]
    ∧ bodyOf (stream false [StreamInput.recv ⟨[], str "x"⟩]) ≠ [] := by
  refine ⟨rfl, rfl, by decide, by decide⟩

/-- C3 amended: for every response sink that does not support incremental
flushing, the writer fails the whole request with the explicit error
message `server sent events are unsupported` and HTTP status 500
(internal server error), writes that message plus a newline as the only
body bytes, and writes no event record and no flush. -/
theorem unsupported_sink_behavior :
    ∀ inputs : List StreamInput,
      stream false inputs = httpError (str "server sent events are unsupported") 500
      ∧ statusesOf (stream false inputs) = [500]
      ∧ bodyOf (stream false inputs) = str "server sent events are unsupported" ++ [nl]
      ∧ Action.flush ∉ stream false inputs := by
  intro inputs
  refine ⟨rfl, rfl, rfl, ?_⟩
  show Action.flush ∉ httpError (str "server sent events are unsupported") 500
  decide

/-- C10 counterexample: for the event with empty name and payload
`a\nb` — a payload containing a newline byte — the first blank-line
boundary of the emitted record sits exactly at the record terminator, so
no premature record boundary arises, contradicting the claim that any
newline-carrying payload produces one. -/
theorem embedded_newline_counterexample :
    nl ∈ (⟨[], str "a\nb"⟩ : event).data
    ∧ (firstRecord (eventBytes ⟨[], str "a\nb"⟩)).length + 2 =
        (eventBytes ⟨[], str "a\nb"⟩).length
    ∧ ¬ (firstRecord (eventBytes ⟨[], str "a\nb"⟩)).length + 2 <
        (eventBytes ⟨[], str "a\nb"⟩).length := by
  refine ⟨by decide, by decide, by decide⟩

/-- C10 amended: the writer inserts name and payload into the wire format
verbatim, with no escaping or validation: the emitted bytes are exactly
`(if name nonempty then "event: " ++ name ++ "\n" else "") ++ "data: " ++
payload ++ "\n\n"`.  Consequently a payload containing two consecutive
newline bytes, or ending in a newline byte, makes the first blank-line
boundary of the push-protocol framing fall strictly inside the record —
a premature record boundary — while a single interior newline corrupts
the line structure without moving the boundary. -/
theorem wire_verbatim_no_escaping :
    ∀ e : event,
      eventBytes e = (if e.name = [] then [] else str "event: " ++ e.name ++ [nl])
        ++ (str "data: " ++ e.data ++ [nl, nl])
      ∧ (∀ A B : List Char, e.data ++ [nl] = A ++ [nl, nl] ++ B →
          (firstRecord (eventBytes e)).length + 2 < (eventBytes e).length) := by
  intro e
  refine ⟨eventBytes_eq e, ?_⟩
  intro A B hAB
  have hdata : e.data ++ [nl, nl] = A ++ nl :: nl :: (B ++ [nl]) := by
    have h1 : e.data ++ [nl, nl] = (e.data ++ [nl]) ++ [nl] := by
      simp
    rw [h1, hAB]
    simp
  have hX : eventBytes e =
      ((if e.name = [] then [] else str "event: " ++ e.name ++ [nl]) ++ (str "data: " ++ A))
        ++ nl :: nl :: (B ++ [nl]) := by
    rw [eventBytes_eq]
    rw [show str "data: " ++ e.data ++ [nl, nl] = str "data: " ++ (e.data ++ [nl, nl]) by
      simp [List.append_assoc]]
    rw [hdata]
    simp [List.append_assoc]
  rw [hX]
  have hle := firstRecord_le
    ((if e.name = [] then [] else str "event: " ++ e.name ++ [nl]) ++ (str "data: " ++ A))
    (B ++ [nl])
  have hlen : ((((if e.name = [] then [] else str "event: " ++ e.name ++ [nl])
      ++ (str "data: " ++ A)) ++ nl :: nl :: (B ++ [nl]))).length =
      ((if e.name = [] then [] else str "event: " ++ e.name ++ [nl])
        ++ (str "data: " ++ A)).length + 2 + (B.length + 1) := by
    simp [List.length_append]
    omega
  omega

/-- C10 witness: the amended premature-boundary implication applied to the
event with empty name and payload `a\n`, whose payload ends in a newline. -/
theorem wire_verbatim_no_escaping_witness :
    ((⟨[], ['a', nl]⟩ : event).data ++ [nl] = ['a'] ++ [nl, nl] ++ [])
    ∧ (firstRecord (eventBytes ⟨[], ['a', nl]⟩)).length + 2 <
        (eventBytes ⟨[], ['a', nl]⟩).length :=
  ⟨rfl, (wire_verbatim_no_escaping ⟨[], ['a', nl]⟩).2 ['a'] [] rfl⟩

/-! Claim theorems about the orchestrator validation. -/

/-- C4 counterexample: a `contentStreamer` whose generator slice is
present but empty — zero producers configured — passes validation: the
nil check `cs.eventGenerators == nil` does not fire, `content` starts
zero tasks and returns no error, where the claim requires a configuration
error. -/
theorem empty_generator_slice_counterexample :
    content ⟨some [], true, true⟩ = Except.ok 0
    ∧ numGenerators ⟨some [], true, true⟩ = 0
    ∧ content ⟨some [], true, true⟩ ≠
        Except.error (str "event generators are not configured") := by
  refine ⟨rfl, rfl, ?_⟩
  intro h
  exact Except.noConfusion h

/-- C4 amended: before starting any task, the orchestrator validates that
the producer slice is non-nil (a present-but-empty slice passes, so "at
least one producer" is not enforced), that a stream function is
configured, and that a logger is configured, in that order; if one is
absent it returns the corresponding configuration error immediately with
no tasks started, and these three configuration errors are the only
errors it ever returns — any other configuration yields `ok` with one
task per configured generator. -/
theorem content_validation :
    ∀ cs : contentStreamer,
      (content cs = Except.error (str "event generators are not configured")
        ∨ content cs = Except.error (str "stream function is not configured")
        ∨ content cs = Except.error (str "logger is not configured")
        ∨ content cs = Except.ok (numGenerators cs))
      ∧ (content cs = Except.error (str "event generators are not configured")
          ↔ cs.eventGenerators = none)
      ∧ (content cs = Except.ok (numGenerators cs)
          ↔ cs.eventGenerators ≠ none ∧ cs.streamFn = true ∧ cs.logger = true) := by
  intro cs
  obtain ⟨eg, sf, lg⟩ := cs
  cases eg with
  | none =>
    refine ⟨Or.inl rfl, ⟨fun _ => rfl, fun _ => rfl⟩, ⟨?_, ?_⟩⟩
    · intro h
      exact Except.noConfusion h
    · rintro ⟨h, -⟩
      exact absurd rfl h
  | some gens =>
    cases sf with
    | false =>
      refine ⟨Or.inr (Or.inl rfl), ⟨?_, ?_⟩, ⟨?_, ?_⟩⟩
      · intro h
        have := Except.error.inj h
        exact absurd this (by decide)
      · intro h
        exact Option.noConfusion h
      · intro h
        exact Except.noConfusion h
      · rintro ⟨-, h, -⟩
        exact Bool.noConfusion h
    | true =>
      cases lg with
      | false =>
        refine ⟨Or.inr (Or.inr (Or.inl rfl)), ⟨?_, ?_⟩, ⟨?_, ?_⟩⟩
        · intro h
          have := Except.error.inj h
          exact absurd this (by decide)
        · intro h
          exact Option.noConfusion h
        · intro h
          exact Except.noConfusion h
        · rintro ⟨-, -, h⟩
          exact Bool.noConfusion h
      | true =>
        have hok : content ⟨some gens, true, true⟩ =
            Except.ok (numGenerators ⟨some gens, true, true⟩) := by
          simp [content, numGenerators]
        refine ⟨Or.inr (Or.inr (Or.inr hok)), ⟨?_, ?_⟩, ⟨?_, ?_⟩⟩
        · intro h
          rw [hok] at h
          exact Except.noConfusion h
        · intro h
          exact Option.noConfusion h
        · intro _
          exact ⟨fun h => Option.noConfusion h, rfl, rfl⟩
        · intro _
          exact hok

/-! Claim theorems about one scheduling goroutine. -/

/-- C1 evaluated against the code: when `Generate` errors, the goroutine
logs, pushes nothing — and leaves its timer dead: `timer.Reset` is never
called on the error path, so from the post-error state the only
observation still possible is `ctx.Done()`; no later generation cycle can
ever fire, contradicting the claim that the task re-arms its timer for
`interval()` (or terminates when `interval() == 0`). -/
theorem generation_error_abandons_producer :
    (∀ runEvery d : Nat,
      taskStep runEvery ⟨true, some d⟩ (TaskInput.timerFire GenResult.err)
        = some (⟨true, none⟩, [TaskOutput.logged]))
    ∧ (∀ runEvery : Nat, ∀ r : GenResult,
        taskStep runEvery ⟨true, none⟩ (TaskInput.timerFire r) = none)
    ∧ (∀ runEvery : Nat,
        taskStep runEvery ⟨true, none⟩ TaskInput.ctxDone = some (⟨false, none⟩, []))
    ∧ taskStep 5 initTaskState (TaskInput.timerFire GenResult.err) ≠
        some (⟨true, some 5⟩, [TaskOutput.logged])
    ∧ taskStep 0 initTaskState (TaskInput.timerFire GenResult.err) ≠
        some (⟨false, none⟩, [TaskOutput.logged]) := by
  refine ⟨fun _ _ => rfl, ?_, fun _ => rfl, by decide, by decide⟩
  intro runEvery r
  rfl

/-- Unfolding `taskRun` over one realizable step. -/
theorem taskRun_cons_some {runEvery : Nat} {s s' : TaskState} {out : List TaskOutput}
    {i : TaskInput} (rest : List TaskInput)
    (hstep : taskStep runEvery s i = some (s', out)) :
    taskRun runEvery s (i :: rest) =
      match taskRun runEvery s' rest with
      | none => none
      | some (s'', out') => some (s'', out ++ out') := by
  simp [taskRun, hstep]

/-- Unfolding `taskRun` over one impossible step. -/
theorem taskRun_cons_none {runEvery : Nat} {s : TaskState} {i : TaskInput}
    (rest : List TaskInput) (hstep : taskStep runEvery s i = none) :
    taskRun runEvery s (i :: rest) = none := by
  simp [taskRun, hstep]

/-- The pushes of a run are bounded by the first step plus the rest. -/
theorem optPushCount_cons {runEvery : Nat} {s s' : TaskState} {out : List TaskOutput}
    {i : TaskInput} (rest : List TaskInput)
    (hstep : taskStep runEvery s i = some (s', out)) :
    optPushCount (taskRun runEvery s (i :: rest)) ≤
      pushCount out + optPushCount (taskRun runEvery s' rest) := by
  rw [taskRun_cons_some rest hstep]
  cases hres : taskRun runEvery s' rest with
  | none => simp [optPushCount]
  | some p =>
    obtain ⟨s'', out'⟩ := p
    simp [optPushCount, pushCount, List.countP_append]

/-- A goroutine that has left its loop never pushes again. -/
theorem no_push_when_stopped (runEvery : Nat) (t : Option Nat) :
    ∀ inputs : List TaskInput, optPushCount (taskRun runEvery ⟨false, t⟩ inputs) = 0 := by
  intro inputs
  cases inputs with
  | nil => rfl
  | cons i rest =>
    rw [taskRun_cons_none rest
      (show taskStep runEvery ⟨false, t⟩ i = none from rfl)]
    rfl

/-- A goroutine whose timer is dead never pushes an event, whatever its
running flag and whatever observations follow. -/
theorem no_push_after_timer_dead (runEvery : Nat) :
    ∀ (inputs : List TaskInput) (b : Bool),
      optPushCount (taskRun runEvery ⟨b, none⟩ inputs) = 0 := by
  intro inputs
  induction inputs with
  | nil => intro b; rfl
  | cons i rest ih =>
    intro b
    cases b with
    | false =>
      rw [taskRun_cons_none rest
        (show taskStep runEvery ⟨false, none⟩ i = none from rfl)]
      rfl
    | true =>
      cases i with
      | ctxDone =>
        have h1 := optPushCount_cons rest
          (show taskStep runEvery ⟨true, none⟩ TaskInput.ctxDone
            = some (⟨false, none⟩, []) from rfl)
        have h2 := ih false
        have h3 : pushCount ([] : List TaskOutput) = 0 := rfl
        omega
      | timerFire r =>
        rw [taskRun_cons_none rest
          (show taskStep runEvery ⟨true, none⟩ (TaskInput.timerFire r) = none from rfl)]
        rfl

/-- C7 evaluated against the code: the timer starts armed with duration 0
(first generation attempted immediately); a successful generation pushes
the event and then either terminates the loop (`RunEvery() == 0`) or
re-arms the timer for `RunEvery()`; an interval-zero producer pushes at
most one event over any realizable observation trace — but after a FAILED
first generation the interval-zero task does not terminate: it stays
running with a dead timer, contradicting the claim that it terminates
after its first successful or failed generation. -/
theorem run_once_producer_semantics :
    initTaskState = ⟨true, some 0⟩
    ∧ (∀ runEvery d : Nat, ∀ e : event,
        taskStep runEvery ⟨true, some d⟩ (TaskInput.timerFire (GenResult.ok e))
          = some ((if runEvery = 0 then ⟨false, none⟩ else ⟨true, some runEvery⟩),
              [TaskOutput.pushed e]))
    ∧ (∀ inputs : List TaskInput, optPushCount (taskRun 0 initTaskState inputs) ≤ 1)
    ∧ taskRun 0 initTaskState [TaskInput.timerFire GenResult.err]
        = some (⟨true, none⟩, [TaskOutput.logged]) := by
  refine ⟨rfl, ?_, ?_, rfl⟩
  · intro runEvery d e
    by_cases h : runEvery = 0 <;> simp [taskStep, h]
  · intro inputs
    cases inputs with
    | nil => decide
    | cons i rest =>
      cases i with
      | ctxDone =>
        have h1 := optPushCount_cons rest
          (show taskStep 0 initTaskState TaskInput.ctxDone
            = some (⟨false, some 0⟩, []) from rfl)
        have h2 := no_push_when_stopped 0 (some 0) rest
        have h3 : pushCount ([] : List TaskOutput) = 0 := rfl
        omega
      | timerFire r =>
        cases r with
        | err =>
          have h1 := optPushCount_cons rest
            (show taskStep 0 initTaskState (TaskInput.timerFire GenResult.err)
              = some (⟨true, none⟩, [TaskOutput.logged]) from rfl)
          have h2 := no_push_after_timer_dead 0 rest true
          have h3 : pushCount [TaskOutput.logged] = 0 := rfl
          omega
        | ok e =>
          have h1 := optPushCount_cons rest
            (show taskStep 0 initTaskState (TaskInput.timerFire (GenResult.ok e))
              = some (⟨false, none⟩, [TaskOutput.pushed e]) from rfl)
          have h2 := no_push_when_stopped 0 none rest
          have h3 : pushCount [TaskOutput.pushed e] = 1 := rfl
          omega

/-! Claim theorems about the whole session. -/

/-- Setting one task to `gdone` preserves an all-`gdone` task list. -/
theorem all_gdone_set {ts : List GPhase} {i : Nat} {p : GPhase}
    (h : ∀ t ∈ ts, t = GPhase.gdone) (hp : p = GPhase.gdone) :
    ∀ t ∈ ts.set i p, t = GPhase.gdone := by
  intro t ht
  rcases List.mem_or_eq_of_mem_set ht with h1 | h1
  · exact h t h1
  · rw [h1, hp]

/-- An indexed task is a member of the task list. -/
theorem mem_of_idx {ts : List GPhase} {i : Nat} {p : GPhase}
    (h : ts[i]? = some p) : p ∈ ts :=
  List.get?_mem (by simpa using h)

/-- Every enabled step of the session preserves the safety invariant:
no panic, and the channel is closed only once all goroutines are done. -/
theorem stepL_inv {re : Nat → Nat} {s s' : SysState} {l : Label}
    (h : Inv s) (hs : stepL re s l = some s') : Inv s' := by
  obtain ⟨hp, hc⟩ := h
  cases l with
  | cancel =>
    by_cases hcan : s.canceled = true
    · simp [stepL, hcan] at hs
    · simp [stepL, hcan] at hs
      subst hs
      exact ⟨hp, hc⟩
  | observeCancel i =>
    cases hq : s.tasks[i]? with
    | none => simp [stepL, hq] at hs
    | some ph =>
      cases ph with
      | selecting t =>
        by_cases hcan : s.canceled = true
        · simp [stepL, hq, hcan] at hs
          subst hs
          refine ⟨hp, fun hcl => ?_⟩
          have hmem := mem_of_idx hq
          exact absurd (hc hcl _ hmem) (by simp)
        · simp [stepL, hq, hcan] at hs
      | sending e => simp [stepL, hq] at hs
      | gdone => simp [stepL, hq] at hs
  | genErr i =>
    cases hq : s.tasks[i]? with
    | none => simp [stepL, hq] at hs
    | some ph =>
      cases ph with
      | selecting t =>
        cases t with
        | none => simp [stepL, hq] at hs
        | some d =>
          simp [stepL, hq] at hs
          subst hs
          refine ⟨hp, fun hcl => ?_⟩
          have hmem := mem_of_idx hq
          exact absurd (hc hcl _ hmem) (by simp)
      | sending e => simp [stepL, hq] at hs
      | gdone => simp [stepL, hq] at hs
  | genOk i e =>
    cases hq : s.tasks[i]? with
    | none => simp [stepL, hq] at hs
    | some ph =>
      cases ph with
      | selecting t =>
        cases t with
        | none => simp [stepL, hq] at hs
        | some d =>
          simp [stepL, hq] at hs
          subst hs
          refine ⟨hp, fun hcl => ?_⟩
          have hmem := mem_of_idx hq
          exact absurd (hc hcl _ hmem) (by simp)
      | sending e => simp [stepL, hq] at hs
      | gdone => simp [stepL, hq] at hs
  | push i =>
    cases hq : s.tasks[i]? with
    | none => simp [stepL, hq] at hs
    | some ph =>
      cases ph with
      | selecting t => simp [stepL, hq] at hs
      | gdone => simp [stepL, hq] at hs
      | sending e =>
        by_cases hcl0 : s.closed = true
        · have hmem := mem_of_idx hq
          exact absurd (hc hcl0 _ hmem) (by simp)
        · by_cases hroom : s.queue.length < queueCap
          · simp [stepL, hq, hcl0, hroom] at hs
            subst hs
            exact ⟨hp, fun hcl => absurd hcl (by simp)⟩
          · simp [stepL, hq, hcl0, hroom] at hs
  | recvEvent =>
    by_cases hw : s.wdone = true
    · simp [stepL, hw] at hs
    · cases hqu : s.queue with
      | nil => simp [stepL, hw, hqu] at hs
      | cons e rest =>
        simp [stepL, hw, hqu] at hs
        subst hs
        exact ⟨hp, hc⟩
  | writerExit =>
    by_cases hw : s.wdone = true
    · simp [stepL, hw] at hs
    · by_cases hcan : s.canceled = true
      · simp [stepL, hw, hcan] at hs
        subst hs
        exact ⟨hp, hc⟩
      · simp [stepL, hw, hcan] at hs
  | closeCh =>
    by_cases hcl0 : s.closed = true
    · simp [stepL, hcl0] at hs
    · by_cases hg : (s.wdone && s.tasks.all fun t => t == GPhase.gdone) = true
      · simp [stepL, hcl0, hg] at hs
        subst hs
        refine ⟨hp, fun _ t ht => ?_⟩
        obtain ⟨-, hb⟩ := Bool.and_eq_true_iff.mp hg
        exact eq_of_beq (List.all_eq_true.mp hb t ht)
      · simp [stepL, hcl0, hg] at hs

/-- The safety invariant holds along every realizable label trace. -/
theorem runTrace_inv (re : Nat → Nat) :
    ∀ (ls : List Label) (s : SysState), Inv s → sysInv (runTrace re s ls) := by
  intro ls
  induction ls with
  | nil => intro s h; exact h
  | cons l ls ih =>
    intro s h
    cases hs : stepL re s l with
    | none => simp [runTrace, hs, sysInv]
    | some s' =>
      simp only [runTrace, hs]
      exact ih s' (stepL_inv h hs)

/-- C6: along every realizable interleaving of a session started with any
number of producers, a send on the closed channel never panics — the
channel is only ever closed (`close(ch)` after `wg.Wait()`) once the
writer has exited and every scheduling goroutine has terminated — and on
a validated configuration the orchestrator itself returns no error. -/
theorem close_after_drain_safe :
    (∀ (re : Nat → Nat) (n : Nat) (ls : List Label),
        sysInv (runTrace re (initSys n) ls))
    ∧ (∀ gens : List Nat,
        content ⟨some gens, true, true⟩ = Except.ok gens.length) := by
  constructor
  · intro re n ls
    apply runTrace_inv
    refine ⟨rfl, fun hcl => ?_⟩
    simp [initSys] at hcl
  · intro gens
    rfl

/-- C2 evaluated against the code: a realizable session run with one
producer of interval 5 reaches a state where the context is canceled and
the writer has exited, yet the scheduling goroutine is suspended forever
in the unguarded send `ch <- e` on the full channel: no label is enabled
from that state, so the goroutine never terminates and `wg.Wait()` never
returns — cancellation does not unblock a task suspended pushing onto the
full queue, contradicting the claim. -/
theorem canceled_push_deadlock :
    runTrace (fun _ => 5) (initSys 1)
      [Label.genOk 0 ⟨[], str "a"⟩, Label.push 0, Label.genOk 0 ⟨[], str "b"⟩,
        Label.cancel, Label.writerExit]
      = some ⟨[GPhase.sending ⟨[], str "b"⟩], [⟨[], str "a"⟩], true, false, true, [], false⟩
    ∧ (∀ l : Label,
        stepL (fun _ => 5)
          ⟨[GPhase.sending ⟨[], str "b"⟩], [⟨[], str "a"⟩], true, false, true, [], false⟩ l
          = none)
    ∧ [GPhase.sending ⟨[], str "b"⟩] ≠ [GPhase.gdone]
    ∧ (⟨[GPhase.sending ⟨[], str "b"⟩], [⟨[], str "a"⟩], true, false, true, [], false⟩
        : SysState).canceled = true := by
  refine ⟨rfl, ?_, by decide, rfl⟩
  intro l
  cases l with
  | cancel => rfl
  | observeCancel i => cases i with | zero => rfl | succ n => rfl
  | genErr i => cases i with | zero => rfl | succ n => rfl
  | genOk i e => cases i with | zero => rfl | succ n => rfl
  | push i => cases i with | zero => rfl | succ n => rfl
  | recvEvent => rfl
  | writerExit => rfl
  | closeCh => rfl

end StreamSpec
